import Mathlib

/-!
Verification of the pigeon template/interpolation/compilation core.

This file is a shallow embedding, in Lean 4, of the core of the `pigeon`
outbound-message tool:

* the token resolver and interpolation engine (`src/core/interpolator.ts`:
  `TOKEN_REGEX`, `BUILTINS`, `resolveToken`, `resolveTokens`,
  `walkAndInterpolate`, `interpolate`),
* the required-variable check (`src/core/validator.ts`: `validateVariables`),
* the Slack shorthand compiler (`src/adapters/slack-dsl.ts`:
  `isDSLMessage`, the block and element compilers, `compileDSL`) and the
  adapter entry point (`src/adapters/slack.ts`: `SlackAdapter.compile`).

Modelling conventions:

* JSON-like trees are the inductive `JValue` (string / number / boolean /
  null / array / ordered object).  JavaScript objects are modelled as ordered
  association lists with unique keys; `k in obj` is key membership and
  property reads on objects are first-match lookup.  `JValue.undefined` stands
  for the JavaScript `undefined` produced by reading an absent property.
  A property read on a non-object value is modelled as `undefined`; calling an
  array method on a non-array, or using the `in` operator on a non-object,
  is modelled as the error `CompileErr.typeError` (a JS `TypeError`).
  The prototype chain of plain objects is not modelled.
* JavaScript numbers are abstracted as `Int`; none of the verified
  properties depends on numeric representation.
* The impure built-ins (`new Date().toISOString()`, `Date.now()`,
  `randomUUID()`) are modelled by threading the values they would produce
  (`builtinNow`, `builtinTimestamp`, `builtinUuid`) through the context.
* The source's `resolveToken`/`resolveTokens` recursion has no termination
  guarantee (declared defaults may reference each other), so the embedding
  takes a fuel parameter that every recursive step decrements; the result
  `.error .outOfFuel` at every fuel witnesses divergence (in Node.js, a
  stack overflow) of the unfueled source recursion.  The token-scanning
  loop consumes one unit of fuel per character processed.
* `String.trim` and `String.toUpperCase` are modelled on ASCII
  (`trimStr`, `jsToUpperChar`), which is faithful for every string the
  verified properties touch; `TOKEN_REGEX = /\{\{([^}]+)\}\}/g` and the
  semantics of `String.replace` with a callback are modelled by `scanChars`
  and `splitToken` (leftmost match, greedy run of non-brace characters,
  rescan from the following character when no token matches).
-/

/- ### JSON-like values -/

/-- A JSON-like runtime value: the shapes that template `message` and
`destination` trees, and Slack message payloads, are made of.  `undefined` is
the JavaScript `undefined` obtained by reading an absent property. -/
inductive JValue where
  | undefined : JValue
  | null : JValue
  | bool : Bool → JValue
  | num : Int → JValue
  | str : String → JValue
  | arr : List JValue → JValue
  | obj : List (String × JValue) → JValue
deriving Repr

/-- A JavaScript object: an ordered list of key/value fields. -/
abbrev JObj := List (String × JValue)

/-- First-match field lookup: models reading an own property of a plain
JavaScript object (keys are unique in objects produced by the sources). -/
def getField : JObj → String → Option JValue
  | [], _ => none
  | (k, v) :: rest, key => if k = key then some v else getField rest key

/-- Models the JavaScript `key in obj` test on a plain object. -/
def hasKey (fields : JObj) (key : String) : Bool :=
  (getField fields key).isSome

/-- Property read returning `undefined` when the key is absent. -/
def getFieldJ (fields : JObj) (key : String) : JValue :=
  (getField fields key).getD .undefined

/-- Property read on an arbitrary value: absent keys and reads on
non-objects give `undefined`. -/
def getProp : JValue → String → JValue
  | .obj fields, key => getFieldJ fields key
  | _, _ => .undefined

/-- JavaScript truthiness of a value (`undefined`, `null`, `false`, `0` and
`""` are falsy; arrays and objects are always truthy). -/
def jsTruthy : JValue → Bool
  | .undefined => false
  | .null => false
  | .bool b => b
  | .num n => n != 0
  | .str s => s != ""
  | .arr _ => true
  | .obj _ => true

/- ### Core data model (`src/types.ts`) -/

/-- Model of `TemplateVariable` from `src/types.ts`: an entry of a template's
`variables` map.  Optional fields are `Option`; an absent field is `none`. -/
structure TemplateVariable where
  description : Option String := none
  default : Option String := none
  required : Option Bool := none
deriving Repr, DecidableEq

/-- Model of `PigeonTemplate` from `src/types.ts`.  The free-form `destination` and
`message` trees are ordered objects of `JValue`s; the `variables` map is an
ordered association list. -/
structure PigeonTemplate where
  version : String
  name : String
  description : Option String := none
  destination : JObj
  /- the source field is named `variables`, a reserved word in Lean 4 -/
  variablesMap : Option (List (String × TemplateVariable)) := none
  message : JObj
deriving Repr

/-- Model of `ResolvedTemplate` from `src/types.ts`: a `PigeonTemplate` carrying the
`_resolved: true` marker. -/
structure ResolvedTemplate where
  version : String
  name : String
  description : Option String := none
  destination : JObj
  /- the source field is named `variables`, a reserved word in Lean 4 -/
  variablesMap : Option (List (String × TemplateVariable)) := none
  message : JObj
  _resolved : Bool
deriving Repr

/-- The error kinds raised by the embedded code paths.  `missingVariable`
is `MissingVariableError(tokens, templateName)` from `src/types.ts`;
`outOfFuel` marks exhaustion of the fuel that makes the source's unbounded
recursion total (divergence of the source at that input when it occurs at
every fuel). -/
inductive PigeonErr where
  | missingVariable : List String → String → PigeonErr
  | outOfFuel : PigeonErr
deriving Repr, DecidableEq

/- ### String helpers for the token resolver -/

/-- ASCII whitespace, as trimmed by `String.prototype.trim` on the inputs
this development touches. -/
def isWsChar (c : Char) : Bool :=
  c = ' ' || c = '\t' || c = '\n' || c = '\r'

/-- Model of `token.trim()`. -/
def trimStr (s : String) : String :=
  String.mk (((s.data.dropWhile isWsChar).reverse.dropWhile isWsChar).reverse)

/-- Class `[A-Z]` of the source regex. -/
def isUpperA (c : Char) : Bool := 65 ≤ c.toNat && c.toNat ≤ 90

/-- Class `[0-9]` of the source regex. -/
def isDigitA (c : Char) : Bool := 48 ≤ c.toNat && c.toNat ≤ 57

/-- ASCII lowercase range, used to model `toUpperCase`. -/
def isLowerA (c : Char) : Bool := 97 ≤ c.toNat && c.toNat ≤ 122

/-- ASCII model of `String.prototype.toUpperCase` on one character. -/
def jsToUpperChar (c : Char) : Char :=
  if isLowerA c then Char.ofNat (c.toNat - 32) else c

/-- The test `/^[A-Z_][A-Z0-9_]*$/.test(name)` from `resolveToken`. -/
def allCapsRegex (s : String) : Bool :=
  match s.data with
  | [] => false
  | c :: cs => (isUpperA c || c = '_') && cs.all (fun d => isUpperA d || isDigitA d || d = '_')

/-- The test `name === name.toUpperCase()` from `resolveToken`. -/
def upperFixed (s : String) : Bool :=
  s.data.all (fun c => jsToUpperChar c = c)

/-- One attempted match of `TOKEN_REGEX = /\{\{([^}]+)\}\}/` at the point
just after an opening `{{`: the capture is the maximal nonempty run of
non-`}` characters, and it must be followed immediately by `}}`.  Returns
the captured content and the remainder after the closing braces, or `none`
when the regex does not match here. -/
def splitToken (cs : List Char) : Option (List Char × List Char) :=
  let content := cs.takeWhile (fun c => c ≠ '\x7d')
  match content, cs.dropWhile (fun c => c ≠ '\x7d') with
  | [], _ => none
  | _, '\x7d' :: '\x7d' :: rest => some (content, rest)
  | _, _ => none

/-- The full `TOKEN_REGEX` match attempt at a position whose first
character is `c` and remaining characters are `cs`: the position starts
with `{{` and `splitToken` succeeds on the rest. -/
def tokenAt (c : Char) (cs : List Char) : Option (List Char × List Char) :=
  if c = '\x7b' ∧ cs.head? = some '\x7b' then splitToken cs.tail else none

/-- Returns `true` when `TOKEN_REGEX` has no match anywhere in the character list:
the scan over such a string replaces nothing. -/
def noTokenIn : List Char → Bool
  | [] => true
  | c :: cs => (tokenAt c cs).isNone && noTokenIn cs

/- ### Token resolver and interpolation engine (`src/core/interpolator.ts`) -/

/-- Model of `InterpolationContext` from `src/core/interpolator.ts`, extended with
the values the three impure built-ins produce during this render (the
source samples `new Date()` / `Date.now()` / `randomUUID()` at each use;
the claims verified here do not depend on per-use freshness). -/
structure InterpolationContext where
  vars : List (String × String)
  env : List (String × String)
  templateName : String
  declaredVariables : List (String × TemplateVariable)
  builtinNow : String
  builtinTimestamp : String
  builtinUuid : String
deriving Repr

/-- Association-list lookup, modelling `name in ctx.vars` / `ctx.vars[name]`
(and likewise for `ctx.env`) on plain string-to-string objects. -/
def lookupStr : List (String × String) → String → Option String
  | [], _ => none
  | (k, v) :: rest, key => if k = key then some v else lookupStr rest key

/-- Lookup in the declared-variables map: `ctx.declaredVariables[name]`. -/
def lookupVar : List (String × TemplateVariable) → String → Option TemplateVariable
  | [], _ => none
  | (k, v) :: rest, key => if k = key then some v else lookupVar rest key

/-- Model of `ctx.declaredVariables[name]?.default`. -/
def declDefault (ctx : InterpolationContext) (name : String) : Option String :=
  (lookupVar ctx.declaredVariables name).bind TemplateVariable.default

mutual

/-- Model of `resolveToken(token, ctx)` from `src/core/interpolator.ts`: trim the
token, then try built-ins, caller vars, the all-caps environment
convention, and the declared default (recursively resolved) in that order;
otherwise throw `MissingVariableError([name], ctx.templateName)`.  The
fuel decreases on every recursive step; `fuel = 0` stands for a recursion
that has not terminated within the allotted depth. -/
def resolveToken : Nat → String → InterpolationContext → Except PigeonErr String
  | 0, _, _ => .error .outOfFuel
  | fuel + 1, token, ctx =>
    let name := trimStr token
    if name = "now" then .ok ctx.builtinNow
    else if name = "timestamp" then .ok ctx.builtinTimestamp
    else if name = "uuid" then .ok ctx.builtinUuid
    else
      match lookupStr ctx.vars name with
      | some v => .ok v
      | none =>
        match (if upperFixed name && allCapsRegex name then lookupStr ctx.env name else none) with
        | some v => .ok v
        | none =>
          match declDefault ctx name with
          | some d => (scanChars fuel d.data ctx).map String.mk
          | none => .error (.missingVariable [name] ctx.templateName)

/-- The scan performed by `value.replace(TOKEN_REGEX, cb)` in
`resolveTokens`: walk the characters left to right; at `{{`, if the regex
matches, substitute `resolveToken` of the capture and continue after the
closing braces, otherwise emit one character and rescan from the next. -/
def scanChars : Nat → List Char → InterpolationContext → Except PigeonErr (List Char)
  | 0, _, _ => .error .outOfFuel
  | _ + 1, [], _ => .ok []
  | fuel + 1, c :: cs, ctx =>
    match tokenAt c cs with
    | some (content, rest) => do
        let r ← resolveToken fuel (String.mk content) ctx
        let t ← scanChars fuel rest ctx
        .ok (r.data ++ t)
    | none => do
        let t ← scanChars fuel cs ctx
        .ok (c :: t)

end

/-- Model of `resolveTokens(value, ctx)`: replace every `TOKEN_REGEX` occurrence in
`value` via `resolveToken`. -/
def resolveTokens (fuel : Nat) (value : String) (ctx : InterpolationContext) :
    Except PigeonErr String :=
  (scanChars fuel value.data ctx).map String.mk

mutual

/-- Model of `walkAndInterpolate(node, ctx)`: strings are token-resolved, arrays map
elementwise, objects interpolate both keys and values, and numbers,
booleans and null pass through unchanged. -/
def walkValue (fuel : Nat) (ctx : InterpolationContext) : JValue → Except PigeonErr JValue
  | .str s => (resolveTokens fuel s ctx).map JValue.str
  | .arr xs => (walkList fuel ctx xs).map JValue.arr
  | .obj kvs => (walkEntries fuel ctx kvs).map JValue.obj
  | v => .ok v

/-- Elementwise interpolation of an array (`node.map(...)`). -/
def walkList (fuel : Nat) (ctx : InterpolationContext) :
    List JValue → Except PigeonErr (List JValue)
  | [] => .ok []
  | v :: rest => do
      let v' ← walkValue fuel ctx v
      let rest' ← walkList fuel ctx rest
      .ok (v' :: rest')

/-- Entry-wise interpolation of an object
(`Object.fromEntries(Object.entries(node).map(...))`): each key is passed
through `resolveTokens`, each value is walked recursively, in order. -/
def walkEntries (fuel : Nat) (ctx : InterpolationContext) :
    JObj → Except PigeonErr JObj
  | [] => .ok []
  | (k, v) :: rest => do
      let k' ← resolveTokens fuel k ctx
      let v' ← walkValue fuel ctx v
      let rest' ← walkEntries fuel ctx rest
      .ok ((k', v') :: rest')

end

/-- Model of `interpolate(template, vars, env)` from `src/core/interpolator.ts`:
build the context (declared variables default to `{}`), interpolate the
`destination` and `message` trees, and return the template spread with the
interpolated trees and the `_resolved: true` marker.  `nowVal`,
`timestampVal` and `uuidVal` are the values the impure built-ins produce
during this render. -/
def interpolate (fuel : Nat) (template : PigeonTemplate)
    (vars env : List (String × String)) (nowVal timestampVal uuidVal : String) :
    Except PigeonErr ResolvedTemplate := do
  let ctx : InterpolationContext :=
    { vars := vars, env := env, templateName := template.name,
      declaredVariables := template.variablesMap.getD [],
      builtinNow := nowVal, builtinTimestamp := timestampVal, builtinUuid := uuidVal }
  let interpolatedDestination ← walkEntries fuel ctx template.destination
  let interpolatedMessage ← walkEntries fuel ctx template.message
  .ok { version := template.version, name := template.name,
        description := template.description, destination := interpolatedDestination,
        variablesMap := template.variablesMap, message := interpolatedMessage,
        _resolved := true }

/- ### Required-variable check (`src/core/validator.ts`) -/

/-- Model of `validateVariables(template, vars)`: a declared variable is required
iff `required !== false` and `default === undefined`; every required
variable not supplied by the caller is collected, and a nonempty
collection raises `MissingVariableError(missing, template.name)`. -/
def validateVariables (template : PigeonTemplate) (vars : List (String × String)) :
    Except PigeonErr Unit :=
  let declared := template.variablesMap.getD []
  let missing := declared.filterMap (fun kd =>
    if kd.2.required ≠ some false ∧ kd.2.default = none ∧ lookupStr vars kd.1 = none
    then some kd.1 else none)
  if missing.isEmpty then .ok () else .error (.missingVariable missing template.name)

/- ### Slack shorthand compiler (`src/adapters/slack-dsl.ts`) -/

/-- Failures of the shorthand compiler: the `Unknown block` / `Unknown
element type` throws of `compileBlock` / `compileElement`, and the JS
`TypeError` of calling an array method on a non-array (or the `in`
operator on a non-object). -/
inductive CompileErr where
  | unknownBlock : CompileErr
  | unknownElement : CompileErr
  | typeError : CompileErr
deriving Repr, DecidableEq

/-- Model of `SHORTHAND_BLOCK_KEYS`. -/
def SHORTHAND_BLOCK_KEYS : List String :=
  ["header", "divider", "section", "context", "actions",
   "image", "video", "markdown", "file", "table", "raw"]

/-- One step of the `isDSLMessage` detection: a block counts when it is a
non-null object one of whose keys is a shorthand key.  (A JS array is an
object whose keys are numeric indices, so it never counts.) -/
def blockHasShorthandKey : JValue → Bool
  | .obj fields => fields.any (fun kv => SHORTHAND_BLOCK_KEYS.contains kv.1)
  | _ => false

/-- Model of `isDSLMessage(message)`: the `blocks` field is an array, it is
non-empty, and some block has a shorthand key. -/
def isDSLMessage (message : JObj) : Bool :=
  match getField message "blocks" with
  | some (.arr blocks) => !blocks.isEmpty && blocks.any blockHasShorthandKey
  | _ => false

/-- Model of `plainText(text, emoji)` composition helper. -/
def plainText (text : JValue) (emoji : Bool) : JValue :=
  .obj [("type", .str "plain_text"), ("text", text), ("emoji", .bool emoji)]

/-- Model of `mrkdwn(text)` composition helper. -/
def mrkdwn (text : JValue) : JValue :=
  .obj [("type", .str "mrkdwn"), ("text", text)]

/-- A conditionally-present field of a result object under construction:
models `if (cond) result.k = v` and `...(cond ? {k: v} : {})`. -/
def optField (cond : Bool) (key : String) (v : JValue) : JObj :=
  if cond then [(key, v)] else []

/-- The `a ?? b` nullish-coalescing operator. -/
def nullishOr (v : JValue) (dflt : JValue) : JValue :=
  match v with
  | .undefined => dflt
  | .null => dflt
  | _ => v

/-- Model of `compileConfirm(confirm)`. -/
def compileConfirm (confirm : JValue) : JValue :=
  .obj ([("title", plainText (getProp confirm "title") true),
         ("text", plainText (getProp confirm "text") true),
         ("confirm", plainText (getProp confirm "confirm") true),
         ("deny", plainText (getProp confirm "deny") true)]
    ++ optField (jsTruthy (getProp confirm "style")) "style" (getProp confirm "style"))

/-- Model of `compileOption(opt)`. -/
def compileOption (opt : JValue) : JValue :=
  .obj ([("text", plainText (getProp opt "text") true),
         ("value", nullishOr (getProp opt "value") (getProp opt "text"))]
    ++ optField (jsTruthy (getProp opt "url")) "url" (getProp opt "url")
    ++ optField (jsTruthy (getProp opt "description")) "description"
        (plainText (getProp opt "description") true))

/-- Model of `compileButton(btn)`. -/
def compileButton (btn : JValue) : JValue :=
  .obj ([("type", .str "button"), ("text", plainText (getProp btn "text") true)]
    ++ optField (jsTruthy (getProp btn "url")) "url" (getProp btn "url")
    ++ optField (jsTruthy (getProp btn "action_id")) "action_id" (getProp btn "action_id")
    ++ optField (jsTruthy (getProp btn "value")) "value" (getProp btn "value")
    ++ optField (jsTruthy (getProp btn "style")) "style" (getProp btn "style")
    ++ optField (jsTruthy (getProp btn "confirm")) "confirm" (compileConfirm (getProp btn "confirm"))
    ++ optField (jsTruthy (getProp btn "accessibility_label")) "accessibility_label"
        (getProp btn "accessibility_label"))

/-- Model of `compileOverflow(el)`; `el.options.map(compileOption)` requires an
array. -/
def compileOverflow (el : JValue) : Except CompileErr JValue :=
  match getProp el "options" with
  | .arr opts =>
    .ok (.obj ([("type", .str "overflow"), ("options", .arr (opts.map compileOption))]
      ++ optField (jsTruthy (getProp el "action_id")) "action_id" (getProp el "action_id")))
  | _ => .error .typeError

/-- Model of `compileDatepicker(el)`. -/
def compileDatepicker (el : JValue) : JValue :=
  .obj ([("type", .str "datepicker")]
    ++ optField (jsTruthy (getProp el "action_id")) "action_id" (getProp el "action_id")
    ++ optField (jsTruthy (getProp el "placeholder")) "placeholder"
        (plainText (getProp el "placeholder") true)
    ++ optField (jsTruthy (getProp el "initial_date")) "initial_date" (getProp el "initial_date"))

/-- Model of `compileTimepicker(el)`. -/
def compileTimepicker (el : JValue) : JValue :=
  .obj ([("type", .str "timepicker")]
    ++ optField (jsTruthy (getProp el "action_id")) "action_id" (getProp el "action_id")
    ++ optField (jsTruthy (getProp el "placeholder")) "placeholder"
        (plainText (getProp el "placeholder") true)
    ++ optField (jsTruthy (getProp el "initial_time")) "initial_time" (getProp el "initial_time")
    ++ optField (jsTruthy (getProp el "timezone")) "timezone" (getProp el "timezone"))

/-- Model of `compileSelect(el)` (`select` → native `static_select`). -/
def compileSelect (el : JValue) : Except CompileErr JValue :=
  match getProp el "options" with
  | .arr opts =>
    .ok (.obj ([("type", .str "static_select"), ("options", .arr (opts.map compileOption))]
      ++ optField (jsTruthy (getProp el "action_id")) "action_id" (getProp el "action_id")
      ++ optField (jsTruthy (getProp el "placeholder")) "placeholder"
          (plainText (getProp el "placeholder") true)))
  | _ => .error .typeError

/-- Model of `compileMultiSelect(el)` (`multi_select` → native `multi_static_select`). -/
def compileMultiSelect (el : JValue) : Except CompileErr JValue :=
  match getProp el "options" with
  | .arr opts =>
    .ok (.obj ([("type", .str "multi_static_select"), ("options", .arr (opts.map compileOption))]
      ++ optField (jsTruthy (getProp el "action_id")) "action_id" (getProp el "action_id")
      ++ optField (jsTruthy (getProp el "placeholder")) "placeholder"
          (plainText (getProp el "placeholder") true)))
  | _ => .error .typeError

/-- Model of `compileElement(el)`: dispatch over the element shorthand keys in
source order, `raw` first; an unrecognized shape throws. -/
def compileElement (el : JValue) : Except CompileErr JValue :=
  match el with
  | .obj fields =>
    if hasKey fields "raw" then .ok (getFieldJ fields "raw")
    else if hasKey fields "button" then .ok (compileButton (getFieldJ fields "button"))
    else if hasKey fields "overflow" then compileOverflow (getFieldJ fields "overflow")
    else if hasKey fields "datepicker" then .ok (compileDatepicker (getFieldJ fields "datepicker"))
    else if hasKey fields "timepicker" then .ok (compileTimepicker (getFieldJ fields "timepicker"))
    else if hasKey fields "select" then compileSelect (getFieldJ fields "select")
    else if hasKey fields "multi_select" then compileMultiSelect (getFieldJ fields "multi_select")
    else .error .unknownElement
  | _ => .error .typeError

/-- Model of `compileHeader(value)`: string shorthand or `{text, block_id?}`. -/
def compileHeader (value : JValue) : JValue :=
  match value with
  | .str s => .obj [("type", .str "header"), ("text", plainText (.str s) true)]
  | v =>
    .obj ([("type", .str "header"), ("text", plainText (getProp v "text") true)]
      ++ optField (jsTruthy (getProp v "block_id")) "block_id" (getProp v "block_id"))

/-- Model of `compileDivider(value)`: an object carrying `block_id` keeps it. -/
def compileDivider (value : JValue) : JValue :=
  match value with
  | .obj fields =>
    if hasKey fields "block_id"
    then .obj [("type", .str "divider"), ("block_id", getFieldJ fields "block_id")]
    else .obj [("type", .str "divider")]
  | _ => .obj [("type", .str "divider")]

/-- Model of `compileSection(value)`: optional markdown text, markdown fields list,
block id, and an accessory compiled through the element dispatch. -/
def compileSection (value : JValue) : Except CompileErr JValue := do
  let fieldsPart ←
    if jsTruthy (getProp value "fields") then
      match getProp value "fields" with
      | .arr fs => .ok [("fields", JValue.arr (fs.map mrkdwn))]
      | _ => .error CompileErr.typeError
    else .ok []
  let accessoryPart ←
    if jsTruthy (getProp value "accessory") then do
      let a ← compileElement (getProp value "accessory")
      .ok [("accessory", a)]
    else .ok []
  .ok (.obj ([("type", JValue.str "section")]
    ++ optField (jsTruthy (getProp value "text")) "text" (mrkdwn (getProp value "text"))
    ++ fieldsPart
    ++ optField (jsTruthy (getProp value "block_id")) "block_id" (getProp value "block_id")
    ++ accessoryPart))

/-- Model of `compileContextItem(item)`: plain markdown text, or an image reference
with a direct URL and/or file handle. -/
def compileContextItem (item : JValue) : JValue :=
  match item with
  | .str s => mrkdwn (.str s)
  | _ =>
    let img := getProp item "image"
    .obj ([("type", .str "image"), ("alt_text", getProp img "alt")]
      ++ optField (jsTruthy (getProp img "url")) "image_url" (getProp img "url")
      ++ optField (jsTruthy (getProp img "slack_file")) "slack_file"
          (.obj [("url", getProp img "slack_file")]))

/-- Model of `compileContext(value)`: a bare item list, or `{elements?, block_id?}`
with `elements ?? []`. -/
def compileContext (value : JValue) : Except CompileErr JValue :=
  match value with
  | .arr items =>
    .ok (.obj [("type", .str "context"), ("elements", .arr (items.map compileContextItem))])
  | v =>
    match nullishOr (getProp v "elements") (.arr []) with
    | .arr items =>
      .ok (.obj ([("type", .str "context"), ("elements", .arr (items.map compileContextItem))]
        ++ optField (jsTruthy (getProp v "block_id")) "block_id" (getProp v "block_id")))
    | _ => .error .typeError

/-- Model of `compileActions(value)`: each element runs through the element
dispatch. -/
def compileActions (value : JValue) : Except CompileErr JValue :=
  match getProp value "elements" with
  | .arr els => do
      let compiled ← els.mapM compileElement
      .ok (.obj ([("type", JValue.str "actions"), ("elements", JValue.arr compiled)]
        ++ optField (jsTruthy (getProp value "block_id")) "block_id" (getProp value "block_id")))
  | _ => .error .typeError

/-- Model of `compileImage(value)`: field renames `url → image_url`,
`alt → alt_text`, optional wrapped title. -/
def compileImage (v : JValue) : JValue :=
  .obj ([("type", .str "image"), ("alt_text", getProp v "alt")]
    ++ optField (jsTruthy (getProp v "url")) "image_url" (getProp v "url")
    ++ optField (jsTruthy (getProp v "slack_file")) "slack_file"
        (.obj [("url", getProp v "slack_file")])
    ++ optField (jsTruthy (getProp v "title")) "title" (plainText (getProp v "title") true)
    ++ optField (jsTruthy (getProp v "block_id")) "block_id" (getProp v "block_id"))

/-- Model of `compileVideo(value)`: field renames plus wrapped title/description. -/
def compileVideo (v : JValue) : JValue :=
  .obj ([("type", .str "video"), ("video_url", getProp v "url"),
         ("thumbnail_url", getProp v "thumbnail"), ("alt_text", getProp v "alt"),
         ("title", plainText (getProp v "title") true)]
    ++ optField (jsTruthy (getProp v "description")) "description"
        (plainText (getProp v "description") true)
    ++ optField (jsTruthy (getProp v "provider")) "provider_name" (getProp v "provider")
    ++ optField (jsTruthy (getProp v "title_url")) "title_url" (getProp v "title_url")
    ++ optField (jsTruthy (getProp v "block_id")) "block_id" (getProp v "block_id"))

mutual

/-- JavaScript `String(value)` coercion (ASCII/observable fragment: array
join with `,`, `[object Object]` for plain objects). -/
def jsToString : JValue → String
  | .undefined => "undefined"
  | .null => "null"
  | .bool true => "true"
  | .bool false => "false"
  | .num n => toString n
  | .str s => s
  | .arr xs => String.intercalate "," (jsToStringItems xs)
  | .obj _ => "[object Object]"

/-- Models `Array.prototype.toString` item coercion: `null` and `undefined`
become the empty string inside a join. -/
def jsToStringItems : List JValue → List String
  | [] => []
  | .undefined :: rest => "" :: jsToStringItems rest
  | .null :: rest => "" :: jsToStringItems rest
  | v :: rest => jsToString v :: jsToStringItems rest

end

/-- Model of `compileMarkdown(value)`: `{type: markdown, text: String(value)}`. -/
def compileMarkdown (value : JValue) : JValue :=
  .obj [("type", .str "markdown"), ("text", .str (jsToString value))]

/-- Model of `compileFile(value)`: wraps the external id, always `source: remote`. -/
def compileFile (v : JValue) : JValue :=
  .obj ([("type", .str "file"), ("external_id", getProp v "external_id"),
         ("source", .str "remote")]
    ++ optField (jsTruthy (getProp v "block_id")) "block_id" (getProp v "block_id"))

/-- Model of `compileTable(value)`: rows verbatim, `columns → column_settings`. -/
def compileTable (v : JValue) : JValue :=
  .obj ([("type", .str "table"), ("rows", getProp v "rows")]
    ++ optField (jsTruthy (getProp v "columns")) "column_settings" (getProp v "columns")
    ++ optField (jsTruthy (getProp v "block_id")) "block_id" (getProp v "block_id"))

/-- Model of `compileBlock(block)`: native pass-through when a literal `type` key is
present, then the `raw` escape hatch, then the shorthand dispatch in
source order; an unrecognized shape throws `Unknown block`. -/
def compileBlock (block : JValue) : Except CompileErr JValue :=
  match block with
  | .obj fields =>
    if hasKey fields "type" then .ok (.obj fields)
    else if hasKey fields "raw" then .ok (getFieldJ fields "raw")
    else if hasKey fields "header" then .ok (compileHeader (getFieldJ fields "header"))
    else if hasKey fields "divider" then .ok (compileDivider (getFieldJ fields "divider"))
    else if hasKey fields "section" then compileSection (getFieldJ fields "section")
    else if hasKey fields "context" then compileContext (getFieldJ fields "context")
    else if hasKey fields "actions" then compileActions (getFieldJ fields "actions")
    else if hasKey fields "image" then .ok (compileImage (getFieldJ fields "image"))
    else if hasKey fields "video" then .ok (compileVideo (getFieldJ fields "video"))
    else if hasKey fields "markdown" then .ok (compileMarkdown (getFieldJ fields "markdown"))
    else if hasKey fields "file" then .ok (compileFile (getFieldJ fields "file"))
    else if hasKey fields "table" then .ok (compileTable (getFieldJ fields "table"))
    else .error .unknownBlock
  | _ => .error .typeError

/-- Models `if (message.text) result.text = message.text` and the analogous
truthiness-guarded top-level copies in `compileDSL`. -/
def passIfTruthy (message : JObj) (key : String) : JObj :=
  match getField message key with
  | some v => if jsTruthy v then [(key, v)] else []
  | none => []

/-- Models `if (message.k !== undefined) result.k = message.k` top-level copies in
`compileDSL` (an explicit `undefined` field fails the test). -/
def passIfPresent (message : JObj) (key : String) : JObj :=
  match getField message key with
  | some .undefined => []
  | some v => [(key, v)]
  | none => []

/-- Model of `compileDSL(message)`: copy `text` and `thread_ts` when truthy and
`reply_broadcast`, `unfurl_links`, `unfurl_media` when defined, then
compile `blocks` elementwise when present (truthy). -/
def compileDSL (message : JObj) : Except CompileErr JObj :=
  let base := passIfTruthy message "text" ++ passIfTruthy message "thread_ts"
    ++ passIfPresent message "reply_broadcast" ++ passIfPresent message "unfurl_links"
    ++ passIfPresent message "unfurl_media"
  match getField message "blocks" with
  | some bs =>
    if jsTruthy bs then
      match bs with
      | .arr blocks => (blocks.mapM compileBlock).map (fun cs => base ++ [("blocks", .arr cs)])
      | _ => .error .typeError
    else .ok base
  | none => .ok base

/-- Model of `SlackAdapter.compile(message)` from `src/adapters/slack.ts`:
`isDSLMessage(message) ? compileDSL(message) : message`. -/
def slackCompile (message : JObj) : Except CompileErr JObj :=
  if isDSLMessage message then compileDSL message else .ok message

/- ### Concrete fixtures used by witnesses and counterexamples -/

/-- The circular-defaults template of the source test
`throws on circular variable defaults` (`test/core/interpolator.test.ts`). -/
def cycTemplate : PigeonTemplate :=
  { version := "1", name := "Test",
    destination := [("service", .str "slack"), ("channel", .str "#test")],
    variablesMap := some [("a", { default := some "\x7b\x7bb\x7d\x7d" }),
                       ("b", { default := some "\x7b\x7ba\x7d\x7d" })],
    message := [("text", .str "\x7b\x7ba\x7d\x7d")] }

/-- A template with two distinct unresolvable tokens in one string. -/
def xyTemplate : PigeonTemplate :=
  { version := "1", name := "T",
    destination := [("service", .str "slack")],
    message := [("text", .str "\x7b\x7bx\x7d\x7d \x7b\x7by\x7d\x7d")] }

/-- A template whose message carries a builtin token. -/
def nowTemplate : PigeonTemplate :=
  { version := "1", name := "Test",
    destination := [("service", .str "slack")],
    message := [("text", .str "\x7b\x7bnow\x7d\x7d")] }

/-- A template whose message carries a whitespace-only token. -/
def wsTemplate : PigeonTemplate :=
  { version := "1", name := "T",
    destination := [("service", .str "slack")],
    message := [("text", .str "x\x7b\x7b  \x7d\x7dy")] }

/-- A template declaring an all-caps variable with `required: true` and a
default. -/
def stageTemplate : PigeonTemplate :=
  { version := "1", name := "Test",
    destination := [("service", .str "slack")],
    variablesMap := some [("STAGE", { default := some "staging", required := some true })],
    message := [("text", .str "\x7b\x7bSTAGE\x7d\x7d")] }

/-- The context `interpolate` builds for `cycTemplate`, with the three
builtin values abstract. -/
def ctxCyc (nV tV uV : String) : InterpolationContext :=
  { vars := [], env := [], templateName := "Test",
    declaredVariables := [("a", { default := some "\x7b\x7bb\x7d\x7d" }),
                          ("b", { default := some "\x7b\x7ba\x7d\x7d" })],
    builtinNow := nV, builtinTimestamp := tV, builtinUuid := uV }

/-- A context with an all-caps environment entry and no caller variables
or declarations. -/
def ctxEnvUser : InterpolationContext :=
  { vars := [], env := [("USER", "env-user")], templateName := "T",
    declaredVariables := [], builtinNow := "N", builtinTimestamp := "TS",
    builtinUuid := "UU" }

/-- The context `interpolate` builds for `stageTemplate` with environment
`STAGE=prod`. -/
def ctxStage : InterpolationContext :=
  { vars := [], env := [], templateName := "Test",
    declaredVariables := [("STAGE", { default := some "staging", required := some true })],
    builtinNow := "N", builtinTimestamp := "TS", builtinUuid := "UU" }

/-- An object whose keys and values are token-free strings: the
interpolation walk maps it to itself (given enough fuel). -/
def entriesNoToken : JObj → Bool
  | [] => true
  | (k, v) :: rest =>
    match v with
    | .str s => noTokenIn k.data && noTokenIn s.data && entriesNoToken rest
    | _ => false

/- ### Helper lemmas: the token scan -/

theorem scanChars_cons_token (fuel : Nat) (c : Char) (cs content rest : List Char)
    (ctx : InterpolationContext) (h : tokenAt c cs = some (content, rest)) :
    scanChars (fuel + 1) (c :: cs) ctx = (do
      let r ← resolveToken fuel (String.mk content) ctx
      let t ← scanChars fuel rest ctx
      .ok (r.data ++ t)) := by
  simp [scanChars, h]

theorem scanChars_cons_none (fuel : Nat) (c : Char) (cs : List Char)
    (ctx : InterpolationContext) (h : tokenAt c cs = none) :
    scanChars (fuel + 1) (c :: cs) ctx = (do
      let t ← scanChars fuel cs ctx
      .ok (c :: t)) := by
  simp [scanChars, h]

theorem noTokenIn_cons (c : Char) (cs : List Char) :
    noTokenIn (c :: cs) = true ↔ tokenAt c cs = none ∧ noTokenIn cs = true := by
  simp [noTokenIn, Option.isNone_iff_eq_none]

/-- On a string the token regex does not match, the scan either returns the
string unchanged or runs out of fuel. -/
theorem scanChars_noToken (fuel : Nat) (cs : List Char) (ctx : InterpolationContext)
    (h : noTokenIn cs = true) :
    scanChars fuel cs ctx = .ok cs ∨ scanChars fuel cs ctx = .error .outOfFuel := by
  induction fuel generalizing cs with
  | zero => exact .inr rfl
  | succ fuel ih =>
    cases cs with
    | nil => exact .inl rfl
    | cons c cs =>
      obtain ⟨htok, hrest⟩ := (noTokenIn_cons c cs).mp h
      rw [scanChars_cons_none fuel c cs ctx htok]
      rcases ih cs hrest with hok | herr
      · exact .inl (by rw [hok]; rfl)
      · exact .inr (by rw [herr]; rfl)

/-- With fuel exceeding the length, the scan of a token-free string
returns it unchanged. -/
theorem scanChars_noToken_ok (fuel : Nat) (cs : List Char) (ctx : InterpolationContext)
    (h : noTokenIn cs = true) (hlen : cs.length < fuel) :
    scanChars fuel cs ctx = .ok cs := by
  induction fuel generalizing cs with
  | zero => exact absurd hlen (by omega)
  | succ fuel ih =>
    cases cs with
    | nil => rfl
    | cons c cs =>
      obtain ⟨htok, hrest⟩ := (noTokenIn_cons c cs).mp h
      have hl : cs.length < fuel := by simp [List.length_cons] at hlen; omega
      rw [scanChars_cons_none fuel c cs ctx htok, ih cs hrest hl]; rfl

theorem resolveTokens_noToken (fuel : Nat) (s : String) (ctx : InterpolationContext)
    (h : noTokenIn s.data = true) (hlen : s.data.length < fuel) :
    resolveTokens fuel s ctx = .ok s := by
  rw [resolveTokens, scanChars_noToken_ok fuel s.data ctx h hlen]; rfl

theorem resolveTokens_noToken_or (fuel : Nat) (s : String) (ctx : InterpolationContext)
    (h : noTokenIn s.data = true) :
    resolveTokens fuel s ctx = .ok s ∨ resolveTokens fuel s ctx = .error .outOfFuel := by
  rcases scanChars_noToken fuel s.data ctx h with hok | herr
  · exact .inl (by rw [resolveTokens, hok]; rfl)
  · exact .inr (by rw [resolveTokens, herr]; rfl)

/- ### Helper lemmas: character classes of the all-caps convention -/

theorem jsToUpperChar_fixed (c : Char)
    (h : (isUpperA c || isDigitA c || decide (c = '_')) = true) : jsToUpperChar c = c := by
  simp only [isUpperA, isDigitA, Bool.or_eq_true, Bool.and_eq_true,
    decide_eq_true_eq] at h
  rcases h with (h1 | h2) | h3
  · have hlow : isLowerA c = false := by simp [isLowerA]; omega
    simp [jsToUpperChar, hlow]
  · have hlow : isLowerA c = false := by simp [isLowerA]; omega
    simp [jsToUpperChar, hlow]
  · subst h3; decide

/-- A name matching `^[A-Z_][A-Z0-9_]*$` is fixed by `toUpperCase`, so the
source's conjunction `name === name.toUpperCase() && regex.test(name)`
reduces to the regex test. -/
theorem upperFixed_of_allCaps (s : String) (h : allCapsRegex s = true) :
    upperFixed s = true := by
  rw [allCapsRegex] at h
  rw [upperFixed]
  cases hd : s.data with
  | nil => simp
  | cons c cs =>
    rw [hd] at h
    simp only [Bool.and_eq_true, List.all_eq_true] at h
    obtain ⟨h1, h2⟩ := h
    simp only [List.all_eq_true, decide_eq_true_eq]
    intro x hx
    rcases List.mem_cons.mp hx with hx | hx
    · subst hx
      apply jsToUpperChar_fixed
      simp only [Bool.or_eq_true] at h1 ⊢
      tauto
    · have := h2 x hx
      apply jsToUpperChar_fixed
      simp only [Bool.or_eq_true, decide_eq_true_eq] at this ⊢
      tauto

theorem allCaps_ne_builtins (s : String) (h : allCapsRegex s = true) :
    s ≠ "now" ∧ s ≠ "timestamp" ∧ s ≠ "uuid" := by
  refine ⟨fun he => ?_, fun he => ?_, fun he => ?_⟩ <;>
    (subst he; exact absurd h (by decide))

/- ### Helper lemmas: every missing-variable failure names one token -/

/-- Lemma: `resolveToken` throws `MissingVariableError([name], ...)` with a single
name, and the scan only re-raises resolver failures, so every
missing-variable error carries a singleton token list. -/
theorem missing_singleton (fuel : Nat) :
    (∀ token ctx toks tn,
      resolveToken fuel token ctx = .error (.missingVariable toks tn) → ∃ s, toks = [s])
  ∧ (∀ cs ctx toks tn,
      scanChars fuel cs ctx = .error (.missingVariable toks tn) → ∃ s, toks = [s]) := by
  induction fuel with
  | zero =>
    constructor
    · intro token ctx toks tn h; simp [resolveToken] at h
    · intro cs ctx toks tn h; simp [scanChars] at h
  | succ fuel ih =>
    constructor
    · intro token ctx toks tn h
      simp only [resolveToken] at h
      split at h
      · exact Except.noConfusion h
      · split at h
        · exact Except.noConfusion h
        · split at h
          · exact Except.noConfusion h
          · split at h
            · exact Except.noConfusion h
            · split at h
              · exact Except.noConfusion h
              · split at h
                · rename_i d hdef
                  cases hs : scanChars fuel d.data ctx with
                  | ok t => rw [hs] at h; exact Except.noConfusion h
                  | error e =>
                    rw [hs] at h
                    have h' : (Except.error e : Except PigeonErr String) =
                        .error (.missingVariable toks tn) := h
                    injection h' with he
                    exact ih.2 d.data ctx toks tn (he ▸ hs)
                · rename_i hdef
                  have h' : (Except.error (PigeonErr.missingVariable [trimStr token]
                      ctx.templateName) : Except PigeonErr String) =
                      .error (.missingVariable toks tn) := h
                  injection h' with he
                  injection he with he1 he2
                  exact ⟨trimStr token, he1.symm⟩
    · intro cs ctx toks tn h
      cases cs with
      | nil => simp [scanChars] at h
      | cons c cs =>
        cases htok : tokenAt c cs with
        | none =>
          rw [scanChars_cons_none fuel c cs ctx htok] at h
          cases hs : scanChars fuel cs ctx with
          | ok t => rw [hs] at h; exact Except.noConfusion h
          | error e =>
            rw [hs] at h
            have h' : (Except.error e : Except PigeonErr (List Char)) =
                .error (.missingVariable toks tn) := h
            injection h' with he
            exact ih.2 cs ctx toks tn (he ▸ hs)
        | some pair =>
          obtain ⟨content, rest⟩ := pair
          rw [scanChars_cons_token fuel c cs content rest ctx htok] at h
          cases hr : resolveToken fuel (String.mk content) ctx with
          | error e =>
            rw [hr] at h
            have h' : (Except.error e : Except PigeonErr (List Char)) =
                .error (.missingVariable toks tn) := h
            injection h' with he
            exact ih.1 (String.mk content) ctx toks tn (he ▸ hr)
          | ok r =>
            rw [hr] at h
            cases hs : scanChars fuel rest ctx with
            | ok t => rw [hs] at h; exact Except.noConfusion h
            | error e =>
              rw [hs] at h
              have h' : (Except.error e : Except PigeonErr (List Char)) =
                  .error (.missingVariable toks tn) := h
              injection h' with he
              exact ih.2 rest ctx toks tn (he ▸ hs)

theorem resolveTokens_missing_singleton (fuel : Nat) (s : String)
    (ctx : InterpolationContext) (toks : List String) (tn : String)
    (h : resolveTokens fuel s ctx = .error (.missingVariable toks tn)) : ∃ x, toks = [x] := by
  rw [resolveTokens] at h
  cases hs : scanChars fuel s.data ctx with
  | ok t => rw [hs] at h; exact Except.noConfusion h
  | error e =>
    rw [hs] at h
    have h' : (Except.error e : Except PigeonErr String) =
        .error (.missingVariable toks tn) := h
    injection h' with he
    exact (missing_singleton fuel).2 s.data ctx toks tn (he ▸ hs)

/- ### Helper lemmas: the interpolation walk -/

/-- Any missing-variable failure of the entry walk carries a singleton
token list (it originates in a single `resolveToken` throw). -/
theorem walkEntries_missing_singleton (fuel : Nat) (ctx : InterpolationContext) :
    ∀ (kvs : JObj) (toks : List String) (tn : String),
      walkEntries fuel ctx kvs = .error (.missingVariable toks tn) → ∃ s, toks = [s] := by
  refine walkEntries.induct fuel ctx
    (fun v => ∀ toks tn,
      walkValue fuel ctx v = .error (.missingVariable toks tn) → ∃ s, toks = [s])
    (fun kvs => ∀ toks tn,
      walkEntries fuel ctx kvs = .error (.missingVariable toks tn) → ∃ s, toks = [s])
    (fun xs => ∀ toks tn,
      walkList fuel ctx xs = .error (.missingVariable toks tn) → ∃ s, toks = [s])
    ?_ ?_ ?_ ?_ ?_ ?_ ?_ ?_
  · intro str toks tn h
    simp only [walkValue] at h
    cases hr : resolveTokens fuel str ctx with
    | ok t => rw [hr] at h; exact Except.noConfusion h
    | error e =>
      rw [hr] at h
      have h' : (Except.error e : Except PigeonErr JValue) = .error (.missingVariable toks tn) := h
      injection h' with he
      exact resolveTokens_missing_singleton fuel str ctx toks tn (he ▸ hr)
  · intro xs ih toks tn h
    simp only [walkValue] at h
    cases hr : walkList fuel ctx xs with
    | ok t => rw [hr] at h; exact Except.noConfusion h
    | error e =>
      rw [hr] at h
      have h' : (Except.error e : Except PigeonErr JValue) = .error (.missingVariable toks tn) := h
      injection h' with he
      exact ih toks tn (he ▸ hr)
  · intro kvs ih toks tn h
    simp only [walkValue] at h
    cases hr : walkEntries fuel ctx kvs with
    | ok t => rw [hr] at h; exact Except.noConfusion h
    | error e =>
      rw [hr] at h
      have h' : (Except.error e : Except PigeonErr JValue) = .error (.missingVariable toks tn) := h
      injection h' with he
      exact ih toks tn (he ▸ hr)
  · intro v hs ha ho toks tn h
    have hv : walkValue fuel ctx v = .ok v := by
      cases v with
      | str s => exact absurd rfl (fun he => hs s he)
      | arr xs => exact absurd rfl (fun he => ha xs he)
      | obj kvs => exact absurd rfl (fun he => ho kvs he)
      | undefined => rfl
      | null => rfl
      | bool b => rfl
      | num n => rfl
    rw [hv] at h; exact Except.noConfusion h
  · intro toks tn h; exact Except.noConfusion h
  · intro v rest ihv ihrest toks tn h
    simp only [walkList] at h
    cases hv : walkValue fuel ctx v with
    | error e =>
      rw [hv] at h
      have h' : (Except.error e : Except PigeonErr (List JValue)) =
          .error (.missingVariable toks tn) := h
      injection h' with he
      exact ihv toks tn (he ▸ hv)
    | ok v' =>
      rw [hv] at h
      cases hr : walkList fuel ctx rest with
      | error e =>
        rw [hr] at h
        have h' : (Except.error e : Except PigeonErr (List JValue)) =
            .error (.missingVariable toks tn) := h
        injection h' with he
        exact ihrest toks tn (he ▸ hr)
      | ok t => rw [hr] at h; exact Except.noConfusion h
  · intro toks tn h; exact Except.noConfusion h
  · intro k v rest ihv ihrest toks tn h
    simp only [walkEntries] at h
    cases hk : resolveTokens fuel k ctx with
    | error e =>
      rw [hk] at h
      have h' : (Except.error e : Except PigeonErr JObj) = .error (.missingVariable toks tn) := h
      injection h' with he
      exact resolveTokens_missing_singleton fuel k ctx toks tn (he ▸ hk)
    | ok k' =>
      rw [hk] at h
      cases hv : walkValue fuel ctx v with
      | error e =>
        rw [hv] at h
        have h' : (Except.error e : Except PigeonErr JObj) = .error (.missingVariable toks tn) := h
        injection h' with he
        exact ihv toks tn (he ▸ hv)
      | ok v' =>
        rw [hv] at h
        cases hr : walkEntries fuel ctx rest with
        | error e =>
          rw [hr] at h
          have h' : (Except.error e : Except PigeonErr JObj) = .error (.missingVariable toks tn) := h
          injection h' with he
          exact ihrest toks tn (he ▸ hr)
        | ok t => rw [hr] at h; exact Except.noConfusion h

/-- The walk over a token-free string object returns it unchanged or runs
out of fuel. -/
theorem walkEntries_entriesNoToken (fuel : Nat) (ctx : InterpolationContext)
    (es : JObj) (h : entriesNoToken es = true) :
    walkEntries fuel ctx es = .ok es ∨ walkEntries fuel ctx es = .error .outOfFuel := by
  induction es with
  | nil => exact .inl rfl
  | cons kv rest ih =>
    obtain ⟨k, v⟩ := kv
    cases v with
    | str s =>
      simp only [entriesNoToken, Bool.and_eq_true] at h
      obtain ⟨⟨hk, hs⟩, hrest⟩ := h
      simp only [walkEntries]
      rcases resolveTokens_noToken_or fuel k ctx hk with hko | hke
      · rw [hko]
        have ew : walkValue fuel ctx (.str s) = (resolveTokens fuel s ctx).map JValue.str := rfl
        rcases resolveTokens_noToken_or fuel s ctx hs with hso | hse
        · rw [ew, hso]
          rcases ih hrest with hro | hre
          · rw [hro]; exact .inl rfl
          · rw [hre]; exact .inr rfl
        · rw [ew, hse]; exact .inr rfl
      · rw [hke]; exact .inr rfl
    | undefined => simp [entriesNoToken] at h
    | null => simp [entriesNoToken] at h
    | bool b => simp [entriesNoToken] at h
    | num n => simp [entriesNoToken] at h
    | arr xs => simp [entriesNoToken] at h
    | obj kvs => simp [entriesNoToken] at h

/- ### Helper lemmas: the circular-defaults chain `a → {{b}} → a` -/

/-- The mutual recursion between the defaults of `a` and `b` consumes fuel
forever: at every recursion depth the resolver is still running. -/
theorem cyc_resolveToken (nV tV uV : String) : ∀ fuel : Nat,
    (resolveToken fuel "a" (ctxCyc nV tV uV) = .error .outOfFuel ∧
     resolveToken fuel "b" (ctxCyc nV tV uV) = .error .outOfFuel) ∧
    (resolveToken (fuel + 1) "a" (ctxCyc nV tV uV) = .error .outOfFuel ∧
     resolveToken (fuel + 1) "b" (ctxCyc nV tV uV) = .error .outOfFuel) := by
  intro fuel
  induction fuel with
  | zero => exact ⟨⟨rfl, rfl⟩, ⟨rfl, rfl⟩⟩
  | succ fuel ih =>
    refine ⟨ih.2, ?_, ?_⟩
    · have e1 : resolveToken (fuel + 1 + 1) "a" (ctxCyc nV tV uV) =
          (scanChars (fuel + 1) ['\x7b', '\x7b', 'b', '\x7d', '\x7d'] (ctxCyc nV tV uV)).map String.mk := rfl
      have e2 : scanChars (fuel + 1) ['\x7b', '\x7b', 'b', '\x7d', '\x7d'] (ctxCyc nV tV uV) = (do
          let r ← resolveToken fuel "b" (ctxCyc nV tV uV)
          let t ← scanChars fuel ([] : List Char) (ctxCyc nV tV uV)
          Except.ok (r.data ++ t)) := rfl
      rw [e1, e2, ih.1.2]; rfl
    · have e1 : resolveToken (fuel + 1 + 1) "b" (ctxCyc nV tV uV) =
          (scanChars (fuel + 1) ['\x7b', '\x7b', 'a', '\x7d', '\x7d'] (ctxCyc nV tV uV)).map String.mk := rfl
      have e2 : scanChars (fuel + 1) ['\x7b', '\x7b', 'a', '\x7d', '\x7d'] (ctxCyc nV tV uV) = (do
          let r ← resolveToken fuel "a" (ctxCyc nV tV uV)
          let t ← scanChars fuel ([] : List Char) (ctxCyc nV tV uV)
          Except.ok (r.data ++ t)) := rfl
      rw [e1, e2, ih.1.1]; rfl

/-- Resolving the message string `{{a}}` of the circular template runs out
of fuel at every fuel. -/
theorem cyc_resolveTokens (nV tV uV : String) (fuel : Nat) :
    resolveTokens fuel "\x7b\x7ba\x7d\x7d" (ctxCyc nV tV uV) = .error .outOfFuel := by
  cases fuel with
  | zero => rfl
  | succ f =>
    have e : resolveTokens (f + 1) "\x7b\x7ba\x7d\x7d" (ctxCyc nV tV uV) = ((do
        let r ← resolveToken f "a" (ctxCyc nV tV uV)
        let t ← scanChars f ([] : List Char) (ctxCyc nV tV uV)
        Except.ok (r.data ++ t)).map String.mk) := rfl
    rw [e, (cyc_resolveToken nV tV uV f).1.1]; rfl

/-- Walking the message object of the circular template runs out of fuel. -/
theorem cyc_message_walk (nV tV uV : String) (fuel : Nat) :
    walkEntries fuel (ctxCyc nV tV uV) [("text", JValue.str "\x7b\x7ba\x7d\x7d")] = .error .outOfFuel := by
  simp only [walkEntries]
  rcases resolveTokens_noToken_or fuel "text" (ctxCyc nV tV uV) (by decide) with hk | hk
  · rw [hk]
    have ew : walkValue fuel (ctxCyc nV tV uV) (.str "\x7b\x7ba\x7d\x7d") =
        (resolveTokens fuel "\x7b\x7ba\x7d\x7d" (ctxCyc nV tV uV)).map JValue.str := rfl
    rw [ew, cyc_resolveTokens nV tV uV fuel]; rfl
  · rw [hk]; rfl

/- ### Helper lemmas: field lookup in compiled payloads -/

theorem getField_append (a b : JObj) (k : String) :
    getField (a ++ b) k = ((getField a k).orElse fun _ => getField b k) := by
  induction a with
  | nil => simp [getField]
  | cons kv rest ih =>
    obtain ⟨k', v⟩ := kv
    by_cases hk : k' = k
    · simp [getField, hk]
    · simp [getField, hk, ih]

theorem getField_passIfTruthy_self (m : JObj) (k : String) (v : JValue)
    (h1 : getField m k = some v) (h2 : jsTruthy v = true) :
    getField (passIfTruthy m k) k = some v := by
  simp [passIfTruthy, h1, h2, getField]

theorem getField_passIfTruthy_ne (m : JObj) (k k' : String) (h : k' ≠ k) :
    getField (passIfTruthy m k) k' = none := by
  rw [passIfTruthy]
  cases hm : getField m k with
  | none => rfl
  | some v =>
    by_cases ht : jsTruthy v
    · simp [ht, getField, Ne.symm h]
    · simp [ht, getField]

theorem getField_passIfPresent_self (m : JObj) (k : String) (v : JValue)
    (h1 : getField m k = some v) (h2 : v ≠ .undefined) :
    getField (passIfPresent m k) k = some v := by
  rw [passIfPresent, h1]
  cases v with
  | undefined => exact absurd rfl h2
  | null => simp [getField]
  | bool b => simp [getField]
  | num n => simp [getField]
  | str str => simp [getField]
  | arr xs => simp [getField]
  | obj fs => simp [getField]

theorem getField_passIfPresent_ne (m : JObj) (k k' : String) (h : k' ≠ k) :
    getField (passIfPresent m k) k' = none := by
  rw [passIfPresent]
  cases hm : getField m k with
  | none => rfl
  | some v => cases v <;> simp [getField, Ne.symm h]

/-- Inversion for a successful `compileDSL`: the payload is the base of
copied top-level fields followed by a tail that carries no top-level
message field (it is empty or just the compiled `blocks`). -/
theorem compileDSL_ok_shape (m r : JObj) (h : compileDSL m = .ok r) :
    ∃ tail : JObj,
      r = (passIfTruthy m "text" ++ passIfTruthy m "thread_ts" ++
          passIfPresent m "reply_broadcast" ++ passIfPresent m "unfurl_links" ++
          passIfPresent m "unfurl_media") ++ tail ∧
      getField tail "text" = none ∧ getField tail "thread_ts" = none ∧
      getField tail "reply_broadcast" = none ∧ getField tail "unfurl_links" = none ∧
      getField tail "unfurl_media" = none := by
  simp only [compileDSL] at h
  split at h
  · -- blocks present
    split at h
    · -- truthy blocks
      split at h
      · -- an array: elementwise compilation
        rename_i blocks heqb htruthy
        cases hm : blocks.mapM compileBlock with
        | error e => rw [hm] at h; exact Except.noConfusion h
        | ok cs =>
          rw [hm] at h
          injection h with he
          exact ⟨[("blocks", JValue.arr cs)], he.symm, rfl, rfl, rfl, rfl, rfl⟩
      · exact Except.noConfusion h
    · -- falsy blocks field: base only
      injection h with he
      exact ⟨[], by rw [← he, List.append_nil], rfl, rfl, rfl, rfl, rfl⟩
  · -- no blocks field: base only
    injection h with he
    exact ⟨[], by rw [← he, List.append_nil], rfl, rfl, rfl, rfl, rfl⟩

/- ### Claim theorems -/

/-- Claim C1 (code bug).  The claim: a template whose declared defaults form
a circular chain (`a → {{b}}`, `b → {{a}}`) and whose message uses that
chain makes `interpolate` fail with a distinct circular-reference failure
rather than recursing indefinitely.  The source has no cycle detection and
no circular-reference error: on `cycTemplate` (the input of the source's
own test `throws on circular variable defaults`) the resolver recursion is
still running at every finite recursion depth — the unfueled source
recursion diverges (a stack overflow in Node.js), and no
circular-reference or missing-variable failure is ever produced. -/
theorem circular_defaults_diverge (fuel : Nat) (nV tV uV : String) :
    interpolate fuel cycTemplate [] [] nV tV uV = .error .outOfFuel := by
  have e0 : interpolate fuel cycTemplate [] [] nV tV uV = (do
      let d ← walkEntries fuel (ctxCyc nV tV uV)
        [("service", JValue.str "slack"), ("channel", JValue.str "#test")]
      let m ← walkEntries fuel (ctxCyc nV tV uV) [("text", JValue.str "\x7b\x7ba\x7d\x7d")]
      Except.ok { version := "1", name := "Test", description := none, destination := d,
                  variablesMap := some [("a", { default := some "\x7b\x7bb\x7d\x7d" }),
                                        ("b", { default := some "\x7b\x7ba\x7d\x7d" })],
                  message := m, _resolved := true }) := rfl
  rw [e0]
  rcases walkEntries_entriesNoToken fuel (ctxCyc nV tV uV)
      [("service", JValue.str "slack"), ("channel", JValue.str "#test")] (by decide) with hd | hd
  · rw [hd, cyc_message_walk nV tV uV fuel]; rfl
  · rw [hd]; rfl

/-- Claim C2 (amended).  As stated, the claim — the missing-variable failure
names every unresolved token — is false (see
`interpolate_missing_first_only_cex`): `resolveToken` throws on the first
unresolved token with a singleton list.  The amended claim proved here:
whenever `interpolate` fails with a missing-variable error, the error
names exactly one token (the first unresolved one encountered). -/
theorem interpolate_missing_names_one_token (fuel : Nat) (t : PigeonTemplate)
    (vars env : List (String × String)) (nV tV uV : String) (toks : List String) (tn : String)
    (h : interpolate fuel t vars env nV tV uV = .error (.missingVariable toks tn)) :
    ∃ s, toks = [s] := by
  simp only [interpolate] at h
  cases hd : walkEntries fuel
      { vars := vars, env := env, templateName := t.name,
        declaredVariables := t.variablesMap.getD [], builtinNow := nV,
        builtinTimestamp := tV, builtinUuid := uV } t.destination with
  | error e =>
    rw [hd] at h
    have h' : (Except.error e : Except PigeonErr ResolvedTemplate) =
        .error (.missingVariable toks tn) := h
    injection h' with he
    exact walkEntries_missing_singleton fuel _ t.destination toks tn (he ▸ hd)
  | ok d =>
    rw [hd] at h
    cases hm : walkEntries fuel
        { vars := vars, env := env, templateName := t.name,
          declaredVariables := t.variablesMap.getD [], builtinNow := nV,
          builtinTimestamp := tV, builtinUuid := uV } t.message with
    | error e =>
      rw [hm] at h
      have h' : (Except.error e : Except PigeonErr ResolvedTemplate) =
          .error (.missingVariable toks tn) := h
      injection h' with he
      exact walkEntries_missing_singleton fuel _ t.message toks tn (he ▸ hm)
    | ok msg => rw [hm] at h; exact Except.noConfusion h

/-- Claim C2 counterexample to the claim as stated: `xyTemplate`'s message
`"{{x}} {{y}}"` has two distinct unresolvable tokens (each fails on its
own, last conjunct), yet the one failure names only `x` — `y` does not
appear in it. -/
theorem interpolate_missing_first_only_cex :
    interpolate 20 xyTemplate [] [] "N" "TS" "UU" = .error (.missingVariable ["x"] "T") ∧
    "y" ∉ (["x"] : List String) ∧
    interpolate 20 { xyTemplate with message := [("text", JValue.str "\x7b\x7by\x7d\x7d")] } [] []
      "N" "TS" "UU" = .error (.missingVariable ["y"] "T") :=
  ⟨rfl, by decide, rfl⟩

theorem interpolate_missing_names_one_token_witness : ∃ s, (["x"] : List String) = [s] :=
  interpolate_missing_names_one_token 20 xyTemplate [] [] "N" "TS" "UU" ["x"] "T" rfl

/-- Claim C3 (confirmed).  A token trimming to `now`, `timestamp` or `uuid`
is answered by the built-in for any context — in particular for any
caller-variable map, which is never consulted; concretely, interpolating
`"{{now}}"` with vars `{now: "x"}` yields the built-in's value `nV`, and
whenever `nV ≠ "x"` the result is not `"x"`. -/
theorem builtins_not_shadowed (fuel : Nat) (t1 t2 t3 : String) (ctx : InterpolationContext)
    (nV tV uV : String) :
    (trimStr t1 = "now" → resolveToken (fuel + 1) t1 ctx = .ok ctx.builtinNow) ∧
    (trimStr t2 = "timestamp" → resolveToken (fuel + 1) t2 ctx = .ok ctx.builtinTimestamp) ∧
    (trimStr t3 = "uuid" → resolveToken (fuel + 1) t3 ctx = .ok ctx.builtinUuid) ∧
    (interpolate 20 nowTemplate [("now", "x")] [] nV tV uV =
      .ok { version := "1", name := "Test", destination := [("service", JValue.str "slack")],
            message := [("text", JValue.str nV)], _resolved := true }) ∧
    (nV ≠ "x" → JValue.str nV ≠ JValue.str "x") := by
  refine ⟨fun h => by simp [resolveToken, h], fun h => by simp [resolveToken, h],
    fun h => by simp [resolveToken, h], ?_, fun h hc => h (by injection hc)⟩
  have e : interpolate 20 nowTemplate [("now", "x")] [] nV tV uV =
      .ok { version := "1", name := "Test", destination := [("service", JValue.str "slack")],
            message := [("text", JValue.str (String.mk (nV.data ++ [])))], _resolved := true } := rfl
  rw [List.append_nil] at e
  exact e

theorem builtins_not_shadowed_witness :
    resolveToken 1 "now" ctxEnvUser = .ok "N" ∧
    resolveToken 1 " timestamp " ctxEnvUser = .ok "TS" ∧
    resolveToken 1 "uuid" ctxEnvUser = .ok "UU" ∧
    JValue.str "2026-01-01T00:00:00.000Z" ≠ JValue.str "x" := by
  obtain ⟨h1, h2, h3, _, h5⟩ := builtins_not_shadowed 0 "now" " timestamp " "uuid" ctxEnvUser
    "2026-01-01T00:00:00.000Z" "1700000000000" "3f2b6c1e-0000-4000-8000-000000000000"
  exact ⟨h1 rfl, h2 rfl, h3 rfl, h5 (by decide)⟩

/-- Claim C4 (confirmed).  A token whose trimmed name fails
`^[A-Z_][A-Z0-9_]*$` never consults the environment: with no builtin
match, no caller variable and no declared default it fails as missing for
every context — in particular for any environment, including one holding
an identically-spelled all-caps entry.  A matching all-caps token absent
from caller variables but present in the environment resolves to the
environment value. -/
theorem all_caps_env_gating (fuel : Nat) (token1 token2 : String)
    (ctx1 ctx2 : InterpolationContext) (v : String) :
    (allCapsRegex (trimStr token1) = false → trimStr token1 ≠ "now" →
      trimStr token1 ≠ "timestamp" → trimStr token1 ≠ "uuid" →
      lookupStr ctx1.vars (trimStr token1) = none →
      declDefault ctx1 (trimStr token1) = none →
      resolveToken (fuel + 1) token1 ctx1 =
        .error (.missingVariable [trimStr token1] ctx1.templateName)) ∧
    (allCapsRegex (trimStr token2) = true → lookupStr ctx2.vars (trimStr token2) = none →
      lookupStr ctx2.env (trimStr token2) = some v →
      resolveToken (fuel + 1) token2 ctx2 = .ok v) := by
  constructor
  · intro hreg hn ht hu hv hd
    simp [resolveToken, hn, ht, hu, hv, hreg, hd]
  · intro hreg hv he
    obtain ⟨hn, ht, hu⟩ := allCaps_ne_builtins _ hreg
    have hup := upperFixed_of_allCaps _ hreg
    simp [resolveToken, hn, ht, hu, hv, hreg, hup, he]

theorem all_caps_env_gating_witness :
    resolveToken 1 "User" ctxEnvUser = .error (.missingVariable ["User"] "T") ∧
    resolveToken 1 "USER" ctxEnvUser = .ok "env-user" := by
  obtain ⟨h1, h2⟩ := all_caps_env_gating 0 "User" "USER" ctxEnvUser ctxEnvUser "env-user"
  exact ⟨h1 (by decide) (by decide) (by decide) (by decide) rfl rfl,
    h2 (by decide) rfl rfl⟩

/-- Claim C5 (amended).  As stated — an empty or whitespace-only token name
is *always* unresolvable, for every caller-variable mapping and
declared-variables map — the claim is false: a caller variable or a
declared default under the empty-string name satisfies the lookup (see
`empty_token_missing_cex`).  Amended claim proved here: a token trimming
to the empty name fails as missing whenever the empty name has no
caller-variable binding and no declared default; the environment is never
consulted for it (it fails the all-caps pattern), so this holds for every
environment. -/
theorem empty_token_missing_amended (fuel : Nat) (token : String)
    (ctx : InterpolationContext) (h1 : trimStr token = "")
    (h2 : lookupStr ctx.vars "" = none) (h3 : declDefault ctx "" = none) :
    resolveToken (fuel + 1) token ctx = .error (.missingVariable [""] ctx.templateName) := by
  have hcaps : (upperFixed "" && allCapsRegex "") = false := by decide
  simp [resolveToken, h1, h2, h3, hcaps]

/-- Claim C5 counterexample to the claim as stated: the whitespace-only
token in `"x{{  }}y"` trims to the empty name, and the caller mapping
binding the empty name to `"v"` resolves it — interpolation succeeds with
`"xvy"` instead of failing with a missing-variable condition. -/
theorem empty_token_missing_cex :
    interpolate 20 wsTemplate [("", "v")] [] "N" "TS" "UU" =
      .ok { version := "1", name := "T", destination := [("service", JValue.str "slack")],
            message := [("text", JValue.str "xvy")], _resolved := true } := rfl

theorem empty_token_missing_amended_witness :
    resolveToken 1 "  " ctxEnvUser = .error (.missingVariable [""] "T") :=
  empty_token_missing_amended 0 "  " ctxEnvUser (by decide) rfl rfl

/-- Claim C6 (amended).  The requiredness definition holds exactly as
claimed: `validateVariables` reports `k` missing iff some declaration of
`k` has `required ≠ false`, no default, and no caller value (first two
conjuncts, both error and success characterized).  The resolution
consequence, as claimed — an unsupplied variable declared with
`required: true` and a default always resolves to the default string — is
false (see `required_default_cex`): the environment tier precedes the
default tier, and a default may itself contain tokens.  Amended: it
resolves to the default string provided the name is not a built-in, is
not an all-caps name bound in the environment, and the default string
itself contains no tokens. -/
theorem required_default_amended
    (t : PigeonTemplate) (vars : List (String × String)) (toks : List String) (tn k : String)
    (fuel : Nat) (token : String) (ctx : InterpolationContext)
    (decl : TemplateVariable) (d : String) :
    (validateVariables t vars = .error (.missingVariable toks tn) →
      (k ∈ toks ↔ ∃ dd, (k, dd) ∈ t.variablesMap.getD [] ∧ dd.required ≠ some false ∧
        dd.default = none ∧ lookupStr vars k = none)) ∧
    (validateVariables t vars = .ok () ↔
      ∀ kd ∈ t.variablesMap.getD [], kd.2.required = some false ∨ kd.2.default ≠ none ∨
        lookupStr vars kd.1 ≠ none) ∧
    (trimStr token = k → k ≠ "now" → k ≠ "timestamp" → k ≠ "uuid" →
      lookupStr ctx.vars k = none →
      (allCapsRegex k = false ∨ lookupStr ctx.env k = none) →
      lookupVar ctx.declaredVariables k = some decl → decl.required = some true →
      decl.default = some d → noTokenIn d.data = true → d.data.length < fuel →
      resolveToken (fuel + 1) token ctx = .ok d) := by
  refine ⟨?_, ?_, ?_⟩
  · intro h
    simp only [validateVariables] at h
    split at h
    · exact Except.noConfusion h
    · injection h with he
      injection he with he1 he2
      rw [← he1, List.mem_filterMap]
      constructor
      · rintro ⟨⟨k', dd⟩, hmem, hf⟩
        dsimp only at hf
        split at hf
        · rename_i hcond
          injection hf with hk
          subst hk
          exact ⟨dd, hmem, hcond.1, hcond.2.1, hcond.2.2⟩
        · exact Option.noConfusion hf
      · rintro ⟨dd, hmem, h1, h2, h3⟩
        exact ⟨(k, dd), hmem, by simp [h1, h2, h3]⟩
  · simp only [validateVariables]
    split
    · rename_i hemp
      rw [List.isEmpty_iff] at hemp
      rw [List.filterMap_eq_nil_iff] at hemp
      constructor
      · intro _ kd hkd
        have := hemp kd hkd
        by_cases h1 : kd.2.required = some false
        · exact .inl h1
        · by_cases h2 : kd.2.default = none
          · by_cases h3 : lookupStr vars kd.1 = none
            · rw [if_pos ⟨h1, h2, h3⟩] at this
              exact Option.noConfusion this
            · exact .inr (.inr h3)
          · exact .inr (.inl h2)
      · intro _; rfl
    · rename_i hemp
      constructor
      · intro h; exact Except.noConfusion h
      · intro hall
        exfalso
        apply hemp
        rw [List.isEmpty_iff, List.filterMap_eq_nil_iff]
        intro kd hkd
        rcases hall kd hkd with h1 | h2 | h3
        · simp [h1]
        · simp [h2]
        · simp [h3]
  · intro h1 hn ht hu hv henv hdecl _ hdef hnt hlen
    have hd' : declDefault ctx k = some d := by simp [declDefault, hdecl, hdef]
    have henv' : (if upperFixed k && allCapsRegex k then lookupStr ctx.env k else none) = none := by
      rcases henv with h | h
      · simp [h]
      · split
        · exact h
        · rfl
    simp only [resolveToken, h1]
    rw [if_neg hn, if_neg ht, if_neg hu, hv, henv', hd']
    have hfinal : Except.map String.mk (scanChars fuel d.data ctx) = Except.ok d := by
      rw [scanChars_noToken_ok fuel d.data ctx hnt hlen]; rfl
    exact hfinal

/-- Claim C6 counterexample to the resolution consequence as stated: the
variable `STAGE` is declared with `required: true` and default
`"staging"`, the caller supplies nothing, and the environment carries
`STAGE=prod`: the required-variable check passes, but the token resolves
to `"prod"`, not to the default `"staging"`. -/
theorem required_default_cex :
    validateVariables stageTemplate [] = .ok () ∧
    interpolate 20 stageTemplate [] [("STAGE", "prod")] "N" "TS" "UU" =
      .ok { version := "1", name := "Test",
            destination := [("service", JValue.str "slack")],
            variablesMap := some [("STAGE", { default := some "staging",
                                              required := some true })],
            message := [("text", JValue.str "prod")], _resolved := true } ∧
    "prod" ≠ "staging" :=
  ⟨rfl, rfl, by decide⟩

theorem required_default_amended_witness :
    validateVariables stageTemplate [] = .ok () ∧
    resolveToken 21 "STAGE" ctxStage = .ok "staging" := by
  obtain ⟨_, hB, hC⟩ := required_default_amended stageTemplate [] [] "" "STAGE" 20 "STAGE"
    ctxStage { default := some "staging", required := some true } "staging"
  refine ⟨hB.mpr ?_, hC rfl (by decide) (by decide) (by decide) rfl (.inr rfl) rfl rfl rfl
    (by decide) (by decide)⟩
  intro kd hkd
  simp only [stageTemplate, Option.getD, List.mem_singleton] at hkd
  subst hkd
  decide

/-- Claim C7 (confirmed).  The Slack adapter's `compile` returns the message
unchanged whenever `blocks` is absent, is an empty array, or is an array
none of whose entries exposes a shorthand key. -/
theorem non_dsl_passthrough (m : JObj) (bs : List JValue) :
    (getField m "blocks" = none → slackCompile m = .ok m) ∧
    (getField m "blocks" = some (.arr []) → slackCompile m = .ok m) ∧
    (getField m "blocks" = some (.arr bs) →
      (∀ b ∈ bs, blockHasShorthandKey b = false) → slackCompile m = .ok m) := by
  refine ⟨fun h => ?_, fun h => ?_, fun h hb => ?_⟩
  · have hd : isDSLMessage m = false := by simp [isDSLMessage, h]
    simp [slackCompile, hd]
  · have hd : isDSLMessage m = false := by simp [isDSLMessage, h]
    simp [slackCompile, hd]
  · have hany : bs.any blockHasShorthandKey = false := by
      rw [List.any_eq_false]; intro b hbm; simp [hb b hbm]
    have hd : isDSLMessage m = false := by simp [isDSLMessage, h, hany]
    simp [slackCompile, hd]

theorem non_dsl_passthrough_witness :
    slackCompile [("text", JValue.str "hi"),
      ("blocks", JValue.arr [JValue.obj [("type", JValue.str "divider")]])] =
    .ok [("text", JValue.str "hi"),
      ("blocks", JValue.arr [JValue.obj [("type", JValue.str "divider")]])] :=
  (non_dsl_passthrough _ [JValue.obj [("type", JValue.str "divider")]]).2.2 rfl (by decide)

/-- Claim C8 (confirmed, for every fragment `X`, in particular every object
without a top-level `type` key): compiling `{blocks: [{raw: X}]}` yields
the payload whose `blocks` array is exactly `[X]`, emitted verbatim. -/
theorem raw_block_verbatim (X : JValue) :
    slackCompile [("blocks", .arr [.obj [("raw", X)]])] = .ok [("blocks", .arr [X])] := rfl

/-- Claim C9 (amended).  As stated — every one of `text`, `thread_ts`,
`reply_broadcast`, `unfurl_links`, `unfurl_media` set on the input,
including an empty string, reaches the payload — the claim is false (see
`top_fields_passthrough_cex`): `text` and `thread_ts` are copied under a
truthiness test that drops the empty string.  Amended claim proved here:
`text` and `thread_ts` pass through whenever truthy, and the three flag
fields pass through whenever present with a defined value, including
`false`. -/
theorem top_fields_passthrough_amended (m r : JObj) (h : compileDSL m = .ok r) :
    (∀ v, getField m "text" = some v → jsTruthy v = true → getField r "text" = some v) ∧
    (∀ v, getField m "thread_ts" = some v → jsTruthy v = true →
      getField r "thread_ts" = some v) ∧
    (∀ v, getField m "reply_broadcast" = some v → v ≠ .undefined →
      getField r "reply_broadcast" = some v) ∧
    (∀ v, getField m "unfurl_links" = some v → v ≠ .undefined →
      getField r "unfurl_links" = some v) ∧
    (∀ v, getField m "unfurl_media" = some v → v ≠ .undefined →
      getField r "unfurl_media" = some v) := by
  obtain ⟨tail, hr, ht1, ht2, ht3, ht4, ht5⟩ := compileDSL_ok_shape m r h
  subst hr
  refine ⟨fun v hv htr => ?_, fun v hv htr => ?_, fun v hv hu => ?_, fun v hv hu => ?_,
    fun v hv hu => ?_⟩
  · simp [getField_append, getField_passIfTruthy_self m "text" v hv htr]
  · simp [getField_append, getField_passIfTruthy_self m "thread_ts" v hv htr,
      getField_passIfTruthy_ne m "text" "thread_ts" (by decide)]
  · simp [getField_append, getField_passIfPresent_self m "reply_broadcast" v hv hu,
      getField_passIfTruthy_ne m "text" "reply_broadcast" (by decide),
      getField_passIfTruthy_ne m "thread_ts" "reply_broadcast" (by decide)]
  · simp [getField_append, getField_passIfPresent_self m "unfurl_links" v hv hu,
      getField_passIfTruthy_ne m "text" "unfurl_links" (by decide),
      getField_passIfTruthy_ne m "thread_ts" "unfurl_links" (by decide),
      getField_passIfPresent_ne m "reply_broadcast" "unfurl_links" (by decide)]
  · simp [getField_append, getField_passIfPresent_self m "unfurl_media" v hv hu,
      getField_passIfTruthy_ne m "text" "unfurl_media" (by decide),
      getField_passIfTruthy_ne m "thread_ts" "unfurl_media" (by decide),
      getField_passIfPresent_ne m "reply_broadcast" "unfurl_media" (by decide),
      getField_passIfPresent_ne m "unfurl_links" "unfurl_media" (by decide)]

/-- Claim C9 counterexample to the claim as stated: a DSL message carrying
`text: ""` compiles to a payload with no `text` field at all — the empty
string is dropped by the truthiness test. -/
theorem top_fields_passthrough_cex :
    compileDSL [("text", JValue.str ""),
      ("blocks", JValue.arr [JValue.obj [("header", JValue.str "Hi")]])] =
      .ok [("blocks", JValue.arr [JValue.obj [("type", JValue.str "header"),
        ("text", JValue.obj [("type", JValue.str "plain_text"), ("text", JValue.str "Hi"),
          ("emoji", JValue.bool true)])]])] ∧
    getField [("blocks", JValue.arr [JValue.obj [("type", JValue.str "header"),
        ("text", JValue.obj [("type", JValue.str "plain_text"), ("text", JValue.str "Hi"),
          ("emoji", JValue.bool true)])]])] "text" = none :=
  ⟨rfl, rfl⟩

theorem top_fields_passthrough_amended_witness :
    getField [("text", JValue.str "hello"), ("thread_ts", JValue.str "123.45"),
      ("reply_broadcast", JValue.bool false), ("unfurl_links", JValue.bool true),
      ("unfurl_media", JValue.bool false)] "text" = some (JValue.str "hello") ∧
    getField [("text", JValue.str "hello"), ("thread_ts", JValue.str "123.45"),
      ("reply_broadcast", JValue.bool false), ("unfurl_links", JValue.bool true),
      ("unfurl_media", JValue.bool false)] "reply_broadcast" = some (JValue.bool false) := by
  obtain ⟨h1, _, h3, _, _⟩ := top_fields_passthrough_amended
    [("text", JValue.str "hello"), ("thread_ts", JValue.str "123.45"),
      ("reply_broadcast", JValue.bool false), ("unfurl_links", JValue.bool true),
      ("unfurl_media", JValue.bool false)]
    [("text", JValue.str "hello"), ("thread_ts", JValue.str "123.45"),
      ("reply_broadcast", JValue.bool false), ("unfurl_links", JValue.bool true),
      ("unfurl_media", JValue.bool false)] rfl
  exact ⟨h1 (JValue.str "hello") rfl rfl,
    h3 (JValue.bool false) rfl (fun hc => JValue.noConfusion hc)⟩

/-- Claim C10 (confirmed).  On success, `interpolate` returns the input
template spread with fresh `destination`/`message` trees and the
`_resolved: true` marker: `version`, `name`, `description` and the
`variables` map are structurally those of the input. -/
theorem interpolate_frame (fuel : Nat) (t : PigeonTemplate) (vars env : List (String × String))
    (nV tV uV : String) (r : ResolvedTemplate)
    (h : interpolate fuel t vars env nV tV uV = .ok r) :
    r.version = t.version ∧ r.name = t.name ∧ r.description = t.description ∧
    r.variablesMap = t.variablesMap ∧ r._resolved = true := by
  simp only [interpolate] at h
  cases hd : walkEntries fuel
      { vars := vars, env := env, templateName := t.name,
        declaredVariables := t.variablesMap.getD [], builtinNow := nV,
        builtinTimestamp := tV, builtinUuid := uV } t.destination with
  | error e => rw [hd] at h; exact Except.noConfusion h
  | ok d =>
    rw [hd] at h
    cases hm : walkEntries fuel
        { vars := vars, env := env, templateName := t.name,
          declaredVariables := t.variablesMap.getD [], builtinNow := nV,
          builtinTimestamp := tV, builtinUuid := uV } t.message with
    | error e => rw [hm] at h; exact Except.noConfusion h
    | ok msg =>
      rw [hm] at h
      have h' : (Except.ok { version := t.version, name := t.name,
                             description := t.description, destination := d,
                             variablesMap := t.variablesMap, message := msg,
                             _resolved := true } :
          Except PigeonErr ResolvedTemplate) = .ok r := h
      injection h' with he
      rw [← he]
      exact ⟨rfl, rfl, rfl, rfl, rfl⟩

theorem interpolate_frame_witness :
    ({ version := "1", name := "Test", destination := [("service", JValue.str "slack")],
       message := [("text", JValue.str "N")], _resolved := true } :
      ResolvedTemplate).version = nowTemplate.version ∧
    ({ version := "1", name := "Test", destination := [("service", JValue.str "slack")],
       message := [("text", JValue.str "N")], _resolved := true } :
      ResolvedTemplate).name = nowTemplate.name ∧
    ({ version := "1", name := "Test", destination := [("service", JValue.str "slack")],
       message := [("text", JValue.str "N")], _resolved := true } :
      ResolvedTemplate).description = nowTemplate.description ∧
    ({ version := "1", name := "Test", destination := [("service", JValue.str "slack")],
       message := [("text", JValue.str "N")], _resolved := true } :
      ResolvedTemplate).variablesMap = nowTemplate.variablesMap ∧
    ({ version := "1", name := "Test", destination := [("service", JValue.str "slack")],
       message := [("text", JValue.str "N")], _resolved := true } :
      ResolvedTemplate)._resolved = true :=
  interpolate_frame 20 nowTemplate [] [] "N" "TS" "UU" _ rfl
